import Mathlib

/-!
Shallow embedding of the `benchmarkconn` Go package: the handshake protocol,
the PressuredBenchmark and IntervalBenchmark writer/reader loops, the
result-map computation, and the counterReport store.

Modelling conventions:
* Go `time.Time` values are nanosecond counts (`Int`); the value `0` stands
  for Go's zero `time.Time` (`IsZero`), and `time.Now()` is always nonzero.
* A Go `atomic.Value` that was never `Store`d holds `none`; loading it and
  type-asserting `.(time.Time)` on the nil interface is a run-time panic,
  modelled with `Except GoPanic`.
* Connection I/O is scripted: each `conn.Write` / `conn.Read` /
  `io.ReadFull` call consumes the next scripted outcome.  The loops index
  their scripts by the current success counter, matching one outcome per
  call performed by the source.
* `float64` arithmetic in `Result()` is modelled over `ℚ`.
* Concurrency is modelled at the join point: the echo-listener goroutine of
  `IntervalBenchmark.Writer` is folded over its scripted read outcomes after
  the send loop, against the echo map the loop produced.
-/

/-- Errors a Go transport or `errors.New` call can produce in this package:
`io.EOF`, `net.ErrClosed`, `io.ErrUnexpectedEOF`, `os.ErrDeadlineExceeded`,
a message error from `errors.New`, or an opaque transport error. -/
inductive GoError where
  | eof
  | errClosed
  | errUnexpectedEOF
  | errDeadlineExceeded
  | errMsg (msg : String)
  | ioErr (tag : Nat)
deriving DecidableEq, Repr

/-- Run-time panics reachable in this package: the nil-interface
`.(time.Time)` assertion in `Result`, the `.(int64)` assertion in
`counterReport.Result`, and `time.NewTicker` on a non-positive duration. -/
inductive GoPanic where
  | nilTimeAssertion
  | nonInt64Assertion
  | nonPositiveTicker
deriving DecidableEq, Repr

/-- The error `errors.New("benchmark specs do not match, aborting")`. -/
def specMismatchErr : GoError := .errMsg "benchmark specs do not match, aborting"

/-- The error `errors.New("failed to read the spec from the connection")`. -/
def specReadShortErr : GoError := .errMsg "failed to read the spec from the connection"

/-- The error `errors.New("failed to write the spec to the connection")`. -/
def specWriteShortErr : GoError := .errMsg "failed to write the spec to the connection"

/-- Outcome of one `conn.Write` call: the byte count on success, or an error. -/
inductive WriteRes where
  | ok (n : Nat)
  | fail (e : GoError)
deriving DecidableEq, Repr

/-- Outcome of one `conn.Read` call: the bytes delivered, or an error. -/
inductive ConnReadRes where
  | ok (data : String)
  | fail (e : GoError)
deriving DecidableEq, Repr

/-- Outcome of one `io.ReadFull(conn, buf)` call: a full buffer, or an
error (`io.EOF` only when zero bytes were read, `io.ErrUnexpectedEOF` for a
partial message, etc.). -/
inductive ReadFullRes where
  | ok
  | fail (e : GoError)
deriving DecidableEq, Repr

/-- Store into an association list, replacing the binding of an existing key:
the model of `sync.Map.Store`. -/
def assocStore [DecidableEq α] : List (α × β) → α → β → List (α × β)
  | [], k, v => [(k, v)]
  | p :: rest, k, v => if p.1 = k then (k, v) :: rest else p :: assocStore rest k v

/-- Lookup in an association list: the model of `sync.Map.Load`. -/
def assocLookup [DecidableEq α] : List (α × β) → α → Option β
  | [], _ => none
  | p :: rest, k => if p.1 = k then some p.2 else assocLookup rest k

/-- Remove a key from an association list: the model of
`sync.Map.CompareAndDelete` with the previously loaded value. -/
def assocRemove [DecidableEq α] : List (α × β) → α → List (α × β)
  | [], _ => []
  | p :: rest, k => if p.1 = k then rest else p :: assocRemove rest k

/-- A dynamically typed Go value (`any`) as stored into a `CounterReport`. -/
inductive GoVal where
  | i64 (n : Int)
  | f64 (tag : Nat)
  | str (s : String)
deriving DecidableEq, Repr

/-- `counterReport.Add(time, value)`: stores the value under the timestamp
key in the internal `sync.Map`. -/
def counterReportAdd (m : List (Int × GoVal)) (t : Int) (v : GoVal) : List (Int × GoVal) :=
  assocStore m t v

/-- The report state produced by a sequence of `Add` calls on a fresh
`counterReport`. -/
def counterReportOfAdds (adds : List (Int × GoVal)) : List (Int × GoVal) :=
  adds.foldl (fun m a => counterReportAdd m a.1 a.2) []

/-- The `int64` payload of a `GoVal`, defined only for `i64` values (the
default `0` is never used under the all-`int64` hypothesis). -/
def goValInt : GoVal → Int
  | .i64 n => n
  | _ => 0

/-- Whether a `GoVal` is dynamically an `int64` (succeeds under the
`value.(int64)` assertion). -/
def isI64 : GoVal → Bool
  | .i64 _ => true
  | _ => false

/-- `counterReport.Result()`: ranges over the stored entries, type-asserting
every value with `value.(int64)`; a non-`int64` value panics. -/
def counterReportResult : List (Int × GoVal) → Except GoPanic (List (Int × Int))
  | [] => .ok []
  | (t, v) :: rest =>
    match v with
    | .i64 n => (counterReportResult rest).map (fun r => (t, n) :: r)
    | _ => .error .nonInt64Assertion

/-- Configuration fields of `PressuredBenchmark` (`MessageSize`,
`TotalMessages`). -/
structure PressuredCfg where
  messageSize : Int
  totalMessages : Nat
deriving DecidableEq, Repr

/-- Configuration fields of `IntervalBenchmark` (`MessageSize`,
`TotalMessages`, `Interval` in nanoseconds, `Echo`). -/
structure IntervalCfg where
  messageSize : Int
  totalMessages : Nat
  interval : Int
  echo : Bool
deriving DecidableEq, Repr

/-- Go's `encoding/json` rendering of a `bool`. -/
def goBool : Bool → String
  | true => "true"
  | false => "false"

/-- `json.Marshal` of a `PressuredBenchmark`: only the two exported fields,
in declaration order, with their `json` tags. -/
def pressuredSpecJson (b : PressuredCfg) : String :=
  "\x7b\"message_size\":" ++ toString b.messageSize ++
    ",\"total_messages\":" ++ toString b.totalMessages ++ "\x7d"

/-- `json.Marshal` of an `IntervalBenchmark`: the four exported fields in
declaration order (`time.Duration` marshals as its nanosecond count). -/
def intervalSpecJson (b : IntervalCfg) : String :=
  "\x7b\"message_size\":" ++ toString b.messageSize ++
    ",\"total_messages\":" ++ toString b.totalMessages ++
    ",\"interval\":" ++ toString b.interval ++
    ",\"echo\":" ++ goBool b.echo ++ "\x7d"

/-- The writer-role handshake: write the local spec (checking the byte
count), then read the peer's spec into a `2*len` buffer, checking length and
byte-for-byte equality.  Returns the error the function would return, or
`none` when the handshake passes. -/
def handshakeWriter (specJson : String) (hsW : WriteRes) (hsR : ConnReadRes) : Option GoError :=
  match hsW with
  | .fail e => some e
  | .ok n =>
    if n ≠ specJson.length then some specWriteShortErr
    else
      match hsR with
      | .fail e => some e
      | .ok data =>
        if data.length ≠ specJson.length then some specReadShortErr
        else if data ≠ specJson then some specMismatchErr
        else none

/-- The reader-role handshake: read the peer's spec first (checking length
and equality against the local spec), then reply with the local spec
(checking the byte count). -/
def handshakeReader (specJson : String) (hsR : ConnReadRes) (hsW : WriteRes) : Option GoError :=
  match hsR with
  | .fail e => some e
  | .ok data =>
    if data.length ≠ specJson.length then some specReadShortErr
    else if data ≠ specJson then some specMismatchErr
    else
      match hsW with
      | .fail e => some e
      | .ok n => if n ≠ specJson.length then some specWriteShortErr else none

/-- Mutable run state of a `PressuredBenchmark`: the two atomic counters and
the two `atomic.Value` timestamps (`none` = never stored), plus whether
`combinedCounter` has been set (it is non-nil after any handshake). -/
structure PState where
  successfulReads : Nat := 0
  successfulWrites : Nat := 0
  startTime : Option Int := none
  endTime : Option Int := none
  hasCombinedCounter : Bool := false
deriving DecidableEq, Repr

/-- Mutable run state of an `IntervalBenchmark`: as `PState` plus the
latency accumulators owned by the echo listener. -/
structure IState where
  successfulReads : Nat := 0
  successfulWrites : Nat := 0
  startTime : Option Int := none
  endTime : Option Int := none
  totalLatency : Nat := 0
  totalMessagesWithLatency : Nat := 0
  hasCombinedCounter : Bool := false
deriving DecidableEq, Repr

/-- The send loop of `PressuredBenchmark.Writer`: `remaining` iterations
left, `done` successful writes so far; `wr i` is the error of the `i`-th
`conn.Write` (`none` = success; the byte count is ignored by the source). -/
def pressuredWriteLoop (wr : Nat → Option GoError) : Nat → Nat → Nat × Option GoError
  | 0, done => (done, none)
  | n + 1, done =>
    match wr done with
    | some e => (done, some e)
    | none => pressuredWriteLoop wr n (done + 1)

/-- The receive loop of `PressuredBenchmark.Reader`: loops while
`successfulReads < TotalMessages`; `io.EOF` and `net.ErrClosed` terminate
the run successfully, any other `io.ReadFull` error is returned. -/
def readLoopP (total : Nat) (rd : Nat → ReadFullRes) (reads : Nat) : Nat × Option GoError :=
  if _h : reads < total then
    match rd reads with
    | .ok => readLoopP total rd (reads + 1)
    | .fail e =>
      if e = GoError.eof ∨ e = GoError.errClosed then (reads, none) else (reads, some e)
  else (reads, none)
termination_by total - reads

/-- The receive loop of `IntervalBenchmark.Reader`: as `readLoopP`, but
after counting a read it echoes the message back when `Echo` is set;
`wrEcho i` is the error of the echo write after the `i`-th read. -/
def readLoopI (total : Nat) (echo : Bool) (rd : Nat → ReadFullRes) (wrEcho : Nat → Option GoError)
    (reads : Nat) : Nat × Option GoError :=
  if _h : reads < total then
    match rd reads with
    | .ok =>
      match (if echo then wrEcho reads else none) with
      | some e => (reads + 1, some e)
      | none => readLoopI total echo rd wrEcho (reads + 1)
    | .fail e =>
      if e = GoError.eof ∨ e = GoError.errClosed then (reads, none) else (reads, some e)
  else (reads, none)
termination_by total - reads

/-- The send loop of `IntervalBenchmark.Writer`: on each tick it generates
`msgGen done`, records it in the echo map with timestamp `sendTimes done`
when `Echo` is set, writes it, and counts the write.  Returns the write
count, the final echo map, and the loop's error. -/
def intervalWriteLoop (echo : Bool) (msgGen : Nat → String) (sendTimes : Nat → Int)
    (wr : Nat → Option GoError) :
    Nat → Nat → List (String × Int) → Nat × List (String × Int) × Option GoError
  | 0, done, emap => (done, emap, none)
  | n + 1, done, emap =>
    let emap2 := if echo then assocStore emap (msgGen done) (sendTimes done) else emap
    match wr done with
    | some e => (done, emap2, some e)
    | none => intervalWriteLoop echo msgGen sendTimes wr n (done + 1) emap2

/-- One scripted outcome of the echo listener's `io.ReadFull`: an echoed
message delivered at `recvTime`, a deadline expiry, or a connection error. -/
inductive EchoOutcome where
  | recv (msg : String) (recvTime : Int)
  | deadlineExceeded
  | connErr (e : GoError)
deriving DecidableEq, Repr

/-- One read cycle of the echo listener: the wall-clock time at which the
read is attempted (when `SetReadDeadline` is called) and its outcome. -/
structure EchoRead where
  attempt : Int
  outcome : EchoOutcome
deriving DecidableEq, Repr

/-- State folded over the echo listener's read cycles: the two latency
accumulators, the echo map, the `exitedDueToDeadline` flag, and the list of
deadlines passed to `SetReadDeadline` (recorded for inspection). -/
structure ListenerState where
  totalLatency : Nat
  messagesWithLatency : Nat
  echoMap : List (String × Int)
  exitedDueToDeadline : Bool
  deadlines : List Int
deriving DecidableEq, Repr

/-- Modulus of Go's `uint64` arithmetic. -/
def u64Mod : Nat := 18446744073709551616

/-- The echo-listener goroutine of `IntervalBenchmark.Writer`: each cycle
sets a read deadline of `now + 1s + Interval`; a deadline expiry sets
`exitedDueToDeadline` and returns, any other read error returns, and a
received echo found in the echo map is removed, counted, and its round-trip
time added to `totalLatency` (converted through `uint64`). -/
def echoListener (interval : Int) : List EchoRead → ListenerState → ListenerState
  | [], s => s
  | r :: rest, s =>
    let s1 : ListenerState := { s with deadlines := s.deadlines ++ [r.attempt + 1000000000 + interval] }
    match r.outcome with
    | .deadlineExceeded => { s1 with exitedDueToDeadline := true }
    | .connErr _ => s1
    | .recv msg now =>
      match assocLookup s1.echoMap msg with
      | some sendTime =>
        echoListener interval rest
          { s1 with
            messagesWithLatency := s1.messagesWithLatency + 1
            echoMap := assocRemove s1.echoMap msg
            totalLatency :=
              (s1.totalLatency + ((now - sendTime) % (u64Mod : Int)).toNat) % u64Mod }
      | none => echoListener interval rest s1

/-- Models Go's `time.NewTicker`, which panics when the duration is not
positive ("non-positive interval for NewTicker"). -/
def newTicker (d : Int) : Except GoPanic Int :=
  if d ≤ 0 then .error .nonPositiveTicker else .ok d

/-- `PressuredBenchmark.Writer`: handshake, then reset the counters, stamp
`startTime := t0`, run the send loop, and stamp `endTime := t1` in the
deferred finalizer (which runs on the error path too).  On handshake failure
the state is left untouched. -/
def pressuredWriterRun (b : PressuredCfg) (s0 : PState) (hsW : WriteRes) (hsR : ConnReadRes)
    (wr : Nat → Option GoError) (t0 t1 : Int) : PState × Option GoError :=
  match handshakeWriter (pressuredSpecJson b) hsW hsR with
  | some e => (s0, some e)
  | none =>
    let lr := pressuredWriteLoop wr b.totalMessages 0
    ({ successfulReads := 0, successfulWrites := lr.1, startTime := some t0,
       endTime := some t1, hasCombinedCounter := true }, lr.2)

/-- `PressuredBenchmark.Reader`: handshake (read first, then reply), then
the receive loop, with the same reset/stamp discipline as the writer. -/
def pressuredReaderRun (b : PressuredCfg) (s0 : PState) (hsR : ConnReadRes) (hsW : WriteRes)
    (rd : Nat → ReadFullRes) (t0 t1 : Int) : PState × Option GoError :=
  match handshakeReader (pressuredSpecJson b) hsR hsW with
  | some e => (s0, some e)
  | none =>
    let lr := readLoopP b.totalMessages rd 0
    ({ successfulReads := lr.1, successfulWrites := 0, startTime := some t0,
       endTime := some t1, hasCombinedCounter := true }, lr.2)

/-- `IntervalBenchmark.Writer`: handshake, reset, `time.NewTicker(Interval)`
(a panic for `Interval ≤ 0`), the paced send loop, and — when `Echo` is set
— the echo listener folded at the join point over its scripted reads against
the echo map the loop produced.  The deferred finalizer stamps
`endTime := tFin`, backdated by `1s + Interval` when the listener exited on
its read deadline. -/
def intervalWriterRun (b : IntervalCfg) (s0 : IState) (hsW : WriteRes) (hsR : ConnReadRes)
    (msgGen : Nat → String) (sendTimes : Nat → Int) (wr : Nat → Option GoError)
    (echoScript : List EchoRead) (t0 tFin : Int) : Except GoPanic (IState × Option GoError) :=
  match handshakeWriter (intervalSpecJson b) hsW hsR with
  | some e => .ok (s0, some e)
  | none =>
    match newTicker b.interval with
    | .error p => .error p
    | .ok _ =>
      let lr := intervalWriteLoop b.echo msgGen sendTimes wr b.totalMessages 0 []
      let es :=
        if b.echo then
          echoListener b.interval echoScript
            ⟨s0.totalLatency, s0.totalMessagesWithLatency, lr.2.1, false, []⟩
        else ⟨s0.totalLatency, s0.totalMessagesWithLatency, [], false, []⟩
      let te := if es.exitedDueToDeadline then tFin - (1000000000 + b.interval) else tFin
      .ok ({ successfulReads := 0, successfulWrites := lr.1, startTime := some t0,
             endTime := some te, totalLatency := es.totalLatency,
             totalMessagesWithLatency := es.messagesWithLatency,
             hasCombinedCounter := true }, lr.2.2)

/-- `IntervalBenchmark.Reader`: handshake (read first, then reply), then the
receive loop with optional echo write-back. -/
def intervalReaderRun (b : IntervalCfg) (s0 : IState) (hsR : ConnReadRes) (hsW : WriteRes)
    (rd : Nat → ReadFullRes) (wrEcho : Nat → Option GoError) (t0 t1 : Int) :
    IState × Option GoError :=
  match handshakeReader (intervalSpecJson b) hsR hsW with
  | some e => (s0, some e)
  | none =>
    let lr := readLoopI b.totalMessages b.echo rd wrEcho 0
    ({ successfulReads := lr.1, successfulWrites := 0, startTime := some t0,
       endTime := some t1, totalLatency := s0.totalLatency,
       totalMessagesWithLatency := s0.totalMessagesWithLatency,
       hasCombinedCounter := true }, lr.2)

/-- The benchmark pair over an ideal loopback: the writer's single spec
write is delivered whole to the reader's single read; when the reader aborts
its handshake it never replies and its side is torn down, so the writer's
pending spec read returns `io.EOF`; on success the reader's reply is
delivered whole.  Returns (writer error, reader error). -/
def pressuredPairHandshake (w r : PressuredCfg) : Option GoError × Option GoError :=
  let wj := pressuredSpecJson w
  let rj := pressuredSpecJson r
  let readerErr := handshakeReader rj (.ok wj) (.ok rj.length)
  let writerReply : ConnReadRes :=
    match readerErr with
    | none => .ok rj
    | some _ => .fail .eof
  (handshakeWriter wj (.ok wj.length) writerReply, readerErr)

/-- The map returned by `PressuredBenchmark.Result`, one `Option` field per
possible key; timestamps and the duration are kept as raw nanosecond values
(their RFC3339/`String()` formatting is injective on them), the `float64`
statistics as rationals.  The `counters` entry is reduced to its presence. -/
structure PResultMap where
  successful_reads : Option Nat := none
  successful_writes : Option Nat := none
  start_time : Option Int := none
  end_time : Option Int := none
  duration : Option Int := none
  ops_per_s : Option ℚ := none
  latency_ns : Option ℚ := none
  counters : Option Unit := none
deriving DecidableEq, Repr

/-- The map returned by `IntervalBenchmark.Result`, with the same field
conventions as `PResultMap`. -/
structure IResultMap where
  successful_reads : Option Nat := none
  successful_writes : Option Nat := none
  start_time : Option Int := none
  end_time : Option Int := none
  duration : Option Int := none
  ops_per_s : Option ℚ := none
  latency_ns : Option ℚ := none
  counters : Option Unit := none
deriving DecidableEq, Repr

/-- `PressuredBenchmark.Result()`: loads `endTime` (a panic when the
`atomic.Value` was never stored), short-circuits to the empty map when it is
the zero time, then loads `startTime` and returns the empty map on a zero
elapsed duration; otherwise builds the full map, adding `ops_per_s` and
`latency_ns` only when `successfulReads > 0`. -/
def pressuredResult (s : PState) : Except GoPanic PResultMap :=
  match s.endTime with
  | none => .error .nilTimeAssertion
  | some te =>
    if te = 0 then .ok {}
    else
      match s.startTime with
      | none => .error .nilTimeAssertion
      | some ts =>
        if te - ts = 0 then .ok {}
        else
          .ok { successful_reads := some s.successfulReads
                successful_writes := some s.successfulWrites
                start_time := some ts
                end_time := some te
                duration := some (te - ts)
                ops_per_s :=
                  if 0 < s.successfulReads then
                    some (((s.successfulReads : ℚ) + (s.successfulWrites : ℚ)) / ((te : ℚ) - (ts : ℚ)) * 1000000000)
                  else none
                latency_ns :=
                  if 0 < s.successfulReads then
                    some (((te : ℚ) - (ts : ℚ)) / ((s.successfulReads : ℚ) + (s.successfulWrites : ℚ)))
                  else none
                counters := if s.hasCombinedCounter then some () else none }

/-- `IntervalBenchmark.Result()`: as `pressuredResult`, except that
`latency_ns` is `totalLatency / totalMessagesWithLatency`, present exactly
when `totalMessagesWithLatency > 0`. -/
def intervalResult (s : IState) : Except GoPanic IResultMap :=
  match s.endTime with
  | none => .error .nilTimeAssertion
  | some te =>
    if te = 0 then .ok {}
    else
      match s.startTime with
      | none => .error .nilTimeAssertion
      | some ts =>
        if te - ts = 0 then .ok {}
        else
          .ok { successful_reads := some s.successfulReads
                successful_writes := some s.successfulWrites
                start_time := some ts
                end_time := some te
                duration := some (te - ts)
                ops_per_s :=
                  if 0 < s.successfulReads then
                    some (((s.successfulReads : ℚ) + (s.successfulWrites : ℚ)) / ((te : ℚ) - (ts : ℚ)) * 1000000000)
                  else none
                latency_ns :=
                  if 0 < s.totalMessagesWithLatency then
                    some ((s.totalLatency : ℚ) / (s.totalMessagesWithLatency : ℚ))
                  else none
                counters := if s.hasCombinedCounter then some () else none }

/-- Two successive `Result()` calls on the same post-join
`PressuredBenchmark` state (the source performs only atomic loads between
and during the calls). -/
def pressuredResultTwice (s : PState) : Except GoPanic (PResultMap × PResultMap) :=
  (pressuredResult s).bind fun r1 => (pressuredResult s).map fun r2 => (r1, r2)

/-- Two successive `Result()` calls on the same post-join
`IntervalBenchmark` state. -/
def intervalResultTwice (s : IState) : Except GoPanic (IResultMap × IResultMap) :=
  (intervalResult s).bind fun r1 => (intervalResult s).map fun r2 => (r1, r2)

/-- A write oracle on which every `conn.Write` succeeds. -/
def allOkWrites : Nat → Option GoError := fun _ => none

/-- A read oracle on which every `io.ReadFull` fills the buffer. -/
def allOkReads : Nat → ReadFullRes := fun _ => .ok

/-- A read oracle failing with `e` on the `k`-th call and succeeding
otherwise. -/
def failAt (k : Nat) (e : GoError) : Nat → ReadFullRes :=
  fun i => if i = k then .fail e else .ok

/-- A deterministic stand-in for the `crypto/rand` payloads in concrete
runs. -/
def witMsgGen : Nat → String := fun i => toString i

/-- Concrete send timestamps for the echo map in concrete runs. -/
def witSendTimes : Nat → Int := fun i => 100 * (i : Int)

/-- An echo-listener read cycle that expires on its deadline. -/
def deadlineRead (t : Int) : EchoRead :=
  { attempt := t, outcome := EchoOutcome.deadlineExceeded }

/-- An echo-listener read cycle delivering `msg` at time `rt`. -/
def recvRead (t : Int) (msg : String) (rt : Int) : EchoRead :=
  { attempt := t, outcome := EchoOutcome.recv msg rt }

deriving instance DecidableEq for Except

theorem handshakeWriter_self (j : String) : handshakeWriter j (.ok j.length) (.ok j) = none := by
  simp [handshakeWriter]

theorem handshakeReader_self (j : String) : handshakeReader j (.ok j) (.ok j.length) = none := by
  simp [handshakeReader]

theorem pressuredWriteLoop_all_ok (wr : Nat → Option GoError) (h : ∀ i, wr i = none) :
    ∀ n done, pressuredWriteLoop wr n done = (done + n, none) := by
  intro n
  induction n with
  | zero => intro done; simp [pressuredWriteLoop]
  | succ m ih =>
    intro done
    rw [pressuredWriteLoop, h done, ih (done + 1)]
    simp [Nat.add_assoc, Nat.add_comm 1 m]

theorem readLoopP_all_ok (rd : Nat → ReadFullRes) (hrd : ∀ i, rd i = .ok) :
    ∀ k total reads, total - reads = k → reads ≤ total →
      readLoopP total rd reads = (total, none) := by
  intro k
  induction k with
  | zero =>
    intro total reads hk hle
    have heq : reads = total := by omega
    subst heq
    rw [readLoopP]
    simp
  | succ m ih =>
    intro total reads hk _hle
    have h : reads < total := by omega
    rw [readLoopP]
    simp only [h, dif_pos, hrd reads]
    exact ih total (reads + 1) (by omega) (by omega)

theorem readLoopI_all_ok (echo : Bool) (rd : Nat → ReadFullRes) (wrEcho : Nat → Option GoError)
    (hrd : ∀ i, rd i = .ok) (hwe : ∀ i, wrEcho i = none) :
    ∀ k total reads, total - reads = k → reads ≤ total →
      readLoopI total echo rd wrEcho reads = (total, none) := by
  intro k
  induction k with
  | zero =>
    intro total reads hk hle
    have heq : reads = total := by omega
    subst heq
    rw [readLoopI]
    simp
  | succ m ih =>
    intro total reads hk _hle
    have h : reads < total := by omega
    have hnone : (if echo then wrEcho reads else none) = none := by cases echo <;> simp [hwe]
    rw [readLoopI]
    simp only [h, dif_pos, hrd reads, hnone]
    exact ih total (reads + 1) (by omega) (by omega)

theorem intervalWriteLoop_all_ok (echo : Bool) (msgGen : Nat → String) (sendTimes : Nat → Int)
    (wr : Nat → Option GoError) (h : ∀ i, wr i = none) :
    ∀ n done emap, ∃ emap2,
      intervalWriteLoop echo msgGen sendTimes wr n done emap = (done + n, emap2, none) := by
  intro n
  induction n with
  | zero => intro done emap; exact ⟨emap, by simp [intervalWriteLoop]⟩
  | succ m ih =>
    intro done emap
    obtain ⟨emap2, hrec⟩ :=
      ih (done + 1) (if echo then assocStore emap (msgGen done) (sendTimes done) else emap)
    refine ⟨emap2, ?_⟩
    rw [intervalWriteLoop, h done, hrec]
    simp [Nat.add_assoc, Nat.add_comm 1 m]

theorem echoListener_deadline_exit (interval : Int) :
    ∀ (pre : List EchoRead) (t : Int) (s : ListenerState),
      (∀ r ∈ pre, ∃ m n, r.outcome = EchoOutcome.recv m n) →
      (echoListener interval (pre ++ [deadlineRead t]) s).exitedDueToDeadline = true ∧
        (echoListener interval (pre ++ [deadlineRead t]) s).deadlines =
          s.deadlines ++ (pre ++ [deadlineRead t]).map
            (fun r => r.attempt + 1000000000 + interval) := by
  intro pre
  induction pre with
  | nil => intro t s _; simp [echoListener, deadlineRead]
  | cons r rest ih =>
    intro t s hall
    obtain ⟨m, n, hout⟩ := hall r (by simp)
    have hrest : ∀ x ∈ rest, ∃ m n, x.outcome = EchoOutcome.recv m n := by
      intro x hx; exact hall x (by simp [hx])
    rw [List.cons_append, echoListener, hout]
    cases hl : assocLookup s.echoMap m with
    | some sendTime =>
      simp only [hl]
      obtain ⟨h1, h2⟩ := ih t _ hrest
      refine ⟨h1, ?_⟩
      rw [h2]
      simp [List.append_assoc]
    | none =>
      simp only [hl]
      obtain ⟨h1, h2⟩ := ih t _ hrest
      refine ⟨h1, ?_⟩
      rw [h2]
      simp [List.append_assoc]

theorem assocStore_preserves_i64 :
    ∀ (m : List (Int × GoVal)) (t : Int) (v : GoVal),
      (∀ p ∈ m, isI64 p.2 = true) → isI64 v = true →
      ∀ p ∈ assocStore m t v, isI64 p.2 = true := by
  intro m
  induction m with
  | nil =>
    intro t v _ hv p hp
    simp [assocStore] at hp
    subst hp
    exact hv
  | cons q rest ih =>
    intro t v hm hv p hp
    rw [assocStore] at hp
    by_cases hq : q.1 = t
    · rw [if_pos hq] at hp
      rcases List.mem_cons.mp hp with h | h
      · subst h; exact hv
      · exact hm p (List.mem_cons_of_mem q h)
    · rw [if_neg hq] at hp
      rcases List.mem_cons.mp hp with h | h
      · subst h; exact hm p (List.mem_cons_self p rest)
      · exact ih t v (fun x hx => hm x (List.mem_cons_of_mem q hx)) hv p h

theorem counterReportOfAdds_i64 (adds : List (Int × GoVal))
    (h : ∀ a ∈ adds, isI64 a.2 = true) :
    ∀ p ∈ counterReportOfAdds adds, isI64 p.2 = true := by
  have hgen : ∀ (l : List (Int × GoVal)) (m : List (Int × GoVal)),
      (∀ a ∈ l, isI64 a.2 = true) → (∀ p ∈ m, isI64 p.2 = true) →
      ∀ p ∈ l.foldl (fun acc a => counterReportAdd acc a.1 a.2) m, isI64 p.2 = true := by
    intro l
    induction l with
    | nil => intro m _ hm; simpa using hm
    | cons a rest ih =>
      intro m hl hm
      rw [List.foldl_cons]
      exact ih _ (fun x hx => hl x (List.mem_cons_of_mem a hx))
        (assocStore_preserves_i64 m a.1 a.2 hm (hl a (List.mem_cons_self a rest)))
  exact hgen adds [] h (by simp)

theorem counterReportResult_all_i64 :
    ∀ m : List (Int × GoVal), (∀ p ∈ m, isI64 p.2 = true) →
      counterReportResult m = .ok (m.map fun p => (p.1, goValInt p.2)) := by
  intro m
  induction m with
  | nil => intro _; rfl
  | cons p rest ih =>
    intro h
    obtain ⟨t, v⟩ := p
    have hv : isI64 v = true := h (t, v) (List.mem_cons_self (t, v) rest)
    cases v with
    | i64 k =>
      rw [counterReportResult, ih (fun x hx => h x (List.mem_cons_of_mem _ hx))]
      simp [goValInt, Except.map]
    | f64 tag => simp [isI64] at hv
    | str s => simp [isI64] at hv

/-- Claim C10: `counterReport.Result()` type-asserts every stored value to
`int64`.  When every `Add` supplied an `int64`, `Result()` returns the
stored timestamp-to-value mapping without panicking; a report holding a
`float64` sample makes `Result()` panic on the `value.(int64)` assertion. -/
theorem counterReport_int64_assertion :
    (∀ adds : List (Int × GoVal), (∀ a ∈ adds, isI64 a.2 = true) →
      counterReportResult (counterReportOfAdds adds) =
        .ok ((counterReportOfAdds adds).map fun p => (p.1, goValInt p.2))) ∧
    counterReportResult (counterReportOfAdds [(1, GoVal.i64 3), (2, GoVal.f64 0)]) =
      .error GoPanic.nonInt64Assertion := by
  constructor
  · intro adds h
    exact counterReportResult_all_i64 _ (counterReportOfAdds_i64 adds h)
  · rfl

/-- Witness for C10 at a concrete two-sample `int64`-only report. -/
theorem counterReport_int64_assertion_witness :
    counterReportResult (counterReportOfAdds [(1, GoVal.i64 3), (2, GoVal.i64 4)]) =
      .ok ((counterReportOfAdds [(1, GoVal.i64 3), (2, GoVal.i64 4)]).map
        fun p => (p.1, goValInt p.2)) :=
  counterReport_int64_assertion.1 [(1, GoVal.i64 3), (2, GoVal.i64 4)] (by decide)

/-- Claim C2 (code evidence): on a benchmark whose run never completed the
`endTime` atomic.Value was never stored, so `Result()` panics on the
nil-interface `.(time.Time)` assertion instead of returning the empty map;
when a run did complete with zero elapsed duration, `Result()` does return
the empty map. -/
theorem result_before_run_panics :
    pressuredResult {} = .error GoPanic.nilTimeAssertion ∧
    intervalResult {} = .error GoPanic.nilTimeAssertion ∧
    pressuredResult ⟨0, 5, some 7, some 7, true⟩ = .ok {} ∧
    intervalResult ⟨0, 5, some 7, some 7, 0, 0, true⟩ = .ok {} := by
  exact ⟨rfl, rfl, rfl, rfl⟩

/-- Claim C5: in both receive loops, a read failing with `io.EOF` or
`net.ErrClosed` makes the Reader return `nil` (successful completion), while
a read failing with any other error makes it return that error. -/
theorem reader_eof_closed_success :
    ∀ (total reads : Nat) (rd : Nat → ReadFullRes) (echo : Bool)
      (wrEcho : Nat → Option GoError) (e : GoError),
      reads < total → rd reads = .fail e →
      ((e = GoError.eof ∨ e = GoError.errClosed →
          readLoopP total rd reads = (reads, none) ∧
          readLoopI total echo rd wrEcho reads = (reads, none)) ∧
       (¬(e = GoError.eof ∨ e = GoError.errClosed) →
          readLoopP total rd reads = (reads, some e) ∧
          readLoopI total echo rd wrEcho reads = (reads, some e))) := by
  intro total reads rd echo wrEcho e hlt hrd
  constructor
  · intro he
    rw [readLoopP, readLoopI]
    simp [hlt, hrd, he]
  · intro he
    rw [readLoopP, readLoopI]
    simp [hlt, hrd, he]

/-- Witness for C5: an `io.EOF` on the third read of five ends both loops
successfully at 2 counted reads. -/
theorem reader_eof_closed_success_witness :
    readLoopP 5 (failAt 2 GoError.eof) 2 = (2, none) ∧
    readLoopI 5 false (failAt 2 GoError.eof) allOkWrites 2 = (2, none) :=
  (reader_eof_closed_success 5 2 (failAt 2 GoError.eof) false allOkWrites GoError.eof
    (by decide) (by decide)).1 (Or.inl rfl)

/-- Claim C9: after a run has completed and all tasks joined, `Result()` is
a pure function of the final state (the source performs only atomic loads),
so two successive calls return identical maps. -/
theorem result_idempotent_after_completion :
    ∀ (sP : PState) (sI : IState) (p1 p2 : PResultMap) (q1 q2 : IResultMap),
      pressuredResultTwice sP = .ok (p1, p2) →
      intervalResultTwice sI = .ok (q1, q2) →
      p1 = p2 ∧ q1 = q2 := by
  intro sP sI p1 p2 q1 q2 hp hq
  constructor
  · unfold pressuredResultTwice at hp
    cases h : pressuredResult sP with
    | error e => rw [h] at hp; simp [Except.bind] at hp
    | ok r =>
      rw [h] at hp
      simp only [Except.bind, Except.map] at hp
      obtain ⟨h1, h2⟩ := Prod.mk.injEq .. ▸ Except.ok.injEq .. ▸ hp
      rw [← h1, ← h2]
  · unfold intervalResultTwice at hq
    cases h : intervalResult sI with
    | error e => rw [h] at hq; simp [Except.bind] at hq
    | ok r =>
      rw [h] at hq
      simp only [Except.bind, Except.map] at hq
      obtain ⟨h1, h2⟩ := Prod.mk.injEq .. ▸ Except.ok.injEq .. ▸ hq
      rw [← h1, ← h2]

/-- Witness for C9 at concrete completed writer-side states. -/
theorem result_idempotent_after_completion_witness :
    (⟨some 0, some 3, some 10, some 20, some 10, none, none, some ()⟩ : PResultMap) =
      ⟨some 0, some 3, some 10, some 20, some 10, none, none, some ()⟩ ∧
    (⟨some 0, some 3, some 10, some 20, some 10, none, none, some ()⟩ : IResultMap) =
      ⟨some 0, some 3, some 10, some 20, some 10, none, none, some ()⟩ :=
  result_idempotent_after_completion ⟨0, 3, some 10, some 20, true⟩
    ⟨0, 3, some 10, some 20, 0, 0, true⟩ _ _ _ _ (by decide) (by decide)

/-- Counterexample to Claim C1 as stated: the interval benchmark with a
zero pacing interval (a configuration with `messageSize > 0` and
`totalMessages > 0`, matching handshake, all transport writes succeeding)
panics in `time.NewTicker` instead of completing with
`successfulWrites = totalMessages`; the panic outcome differs from the
successful run the claim requires. -/
theorem intervalWriter_zero_interval_breaks_totals :
    intervalWriterRun ⟨1, 1, 0, false⟩ {} (.ok (intervalSpecJson ⟨1, 1, 0, false⟩).length)
        (.ok (intervalSpecJson ⟨1, 1, 0, false⟩)) witMsgGen witSendTimes allOkWrites [] 5 10 =
      .error GoPanic.nonPositiveTicker ∧
    (Except.error GoPanic.nonPositiveTicker : Except GoPanic (IState × Option GoError)) ≠
      .ok (⟨0, 1, some 5, some 10, 0, 0, true⟩, none) := by
  exact ⟨by decide, by decide⟩

/-- Claim C1 (amended): with a successful handshake and no transport
failure, the pressured writer ends with `successfulWrites = totalMessages`,
the pressured reader with `successfulReads = totalMessages`, and likewise
for the interval benchmark — provided, for the interval writer, the pacing
interval is positive (a zero interval panics in `time.NewTicker`). -/
theorem benchmark_totals_reach_totalMessages :
    (∀ (b : PressuredCfg) (s0 : PState) (wr : Nat → Option GoError) (t0 t1 : Int),
      0 < b.messageSize → 0 < b.totalMessages → (∀ i, wr i = none) →
      pressuredWriterRun b s0 (.ok (pressuredSpecJson b).length) (.ok (pressuredSpecJson b))
          wr t0 t1 =
        (⟨0, b.totalMessages, some t0, some t1, true⟩, none)) ∧
    (∀ (b : PressuredCfg) (s0 : PState) (rd : Nat → ReadFullRes) (t0 t1 : Int),
      0 < b.messageSize → 0 < b.totalMessages → (∀ i, rd i = .ok) →
      pressuredReaderRun b s0 (.ok (pressuredSpecJson b)) (.ok (pressuredSpecJson b).length)
          rd t0 t1 =
        (⟨b.totalMessages, 0, some t0, some t1, true⟩, none)) ∧
    (∀ (b : IntervalCfg) (s0 : IState) (msgGen : Nat → String) (sendTimes : Nat → Int)
        (wr : Nat → Option GoError) (script : List EchoRead) (t0 tFin : Int),
      0 < b.messageSize → 0 < b.totalMessages → 1 ≤ b.interval → (∀ i, wr i = none) →
      ∃ fin, intervalWriterRun b s0 (.ok (intervalSpecJson b).length)
          (.ok (intervalSpecJson b)) msgGen sendTimes wr script t0 tFin = .ok (fin, none) ∧
        fin.successfulWrites = b.totalMessages) ∧
    (∀ (b : IntervalCfg) (s0 : IState) (rd : Nat → ReadFullRes) (wrEcho : Nat → Option GoError)
        (t0 t1 : Int),
      0 < b.messageSize → 0 < b.totalMessages → (∀ i, rd i = .ok) → (∀ i, wrEcho i = none) →
      ∃ fin, intervalReaderRun b s0 (.ok (intervalSpecJson b)) (.ok (intervalSpecJson b).length)
          rd wrEcho t0 t1 = (fin, none) ∧
        fin.successfulReads = b.totalMessages) := by
  refine ⟨?_, ?_, ?_, ?_⟩
  · intro b s0 wr t0 t1 _ _ hwr
    unfold pressuredWriterRun
    rw [handshakeWriter_self, pressuredWriteLoop_all_ok wr hwr b.totalMessages 0]
    simp
  · intro b s0 rd t0 t1 _ _ hrd
    unfold pressuredReaderRun
    rw [handshakeReader_self,
      readLoopP_all_ok rd hrd (b.totalMessages - 0) b.totalMessages 0 rfl (Nat.zero_le _)]
  · intro b s0 msgGen sendTimes wr script t0 tFin _ _ hint hwr
    obtain ⟨emap2, hloop⟩ :=
      intervalWriteLoop_all_ok b.echo msgGen sendTimes wr hwr b.totalMessages 0 []
    unfold intervalWriterRun
    rw [handshakeWriter_self]
    rw [newTicker, if_neg (by omega : ¬ b.interval ≤ 0)]
    rw [hloop]
    exact ⟨_, rfl, by simp⟩
  · intro b s0 rd wrEcho t0 t1 _ _ hrd hwe
    unfold intervalReaderRun
    rw [handshakeReader_self,
      readLoopI_all_ok b.echo rd wrEcho hrd hwe (b.totalMessages - 0) b.totalMessages 0 rfl
        (Nat.zero_le _)]
    exact ⟨_, rfl, rfl⟩

/-- Witness for C1 (amended) at concrete configurations with 3 messages. -/
theorem benchmark_totals_reach_totalMessages_witness :
    pressuredWriterRun ⟨1024, 3⟩ {} (.ok (pressuredSpecJson ⟨1024, 3⟩).length)
        (.ok (pressuredSpecJson ⟨1024, 3⟩)) allOkWrites 5 9 =
      (⟨0, 3, some 5, some 9, true⟩, none) ∧
    pressuredReaderRun ⟨1024, 3⟩ {} (.ok (pressuredSpecJson ⟨1024, 3⟩))
        (.ok (pressuredSpecJson ⟨1024, 3⟩).length) allOkReads 5 9 =
      (⟨3, 0, some 5, some 9, true⟩, none) ∧
    (∃ fin, intervalWriterRun ⟨64, 3, 1000, false⟩ {}
        (.ok (intervalSpecJson ⟨64, 3, 1000, false⟩).length)
        (.ok (intervalSpecJson ⟨64, 3, 1000, false⟩)) witMsgGen witSendTimes allOkWrites [] 5 9 =
      .ok (fin, none) ∧ fin.successfulWrites = 3) ∧
    (∃ fin, intervalReaderRun ⟨64, 3, 1000, false⟩ {}
        (.ok (intervalSpecJson ⟨64, 3, 1000, false⟩))
        (.ok (intervalSpecJson ⟨64, 3, 1000, false⟩).length) allOkReads allOkWrites 5 9 =
      (fin, none) ∧ fin.successfulReads = 3) := by
  refine ⟨?_, ?_, ?_, ?_⟩
  · exact benchmark_totals_reach_totalMessages.1 ⟨1024, 3⟩ {} allOkWrites 5 9
      (by decide) (by decide) (fun i => rfl)
  · exact benchmark_totals_reach_totalMessages.2.1 ⟨1024, 3⟩ {} allOkReads 5 9
      (by decide) (by decide) (fun i => rfl)
  · exact benchmark_totals_reach_totalMessages.2.2.1 ⟨64, 3, 1000, false⟩ {} witMsgGen
      witSendTimes allOkWrites [] 5 9 (by decide) (by decide) (by decide) (fun i => rfl)
  · exact benchmark_totals_reach_totalMessages.2.2.2 ⟨64, 3, 1000, false⟩ {} allOkReads
      allOkWrites 5 9 (by decide) (by decide) (fun i => rfl) (fun i => rfl)

/-- Counterexample to Claim C3 as stated: an `IntervalBenchmark` writer with
`Interval = 0` panics in `time.NewTicker("non-positive interval")` right
after the handshake — interval 0 is not a valid input that paces at the
smallest representable tick. -/
theorem intervalWriter_zero_interval_panics :
    intervalWriterRun ⟨2, 3, 0, true⟩ {} (.ok (intervalSpecJson ⟨2, 3, 0, true⟩).length)
        (.ok (intervalSpecJson ⟨2, 3, 0, true⟩)) witMsgGen witSendTimes allOkWrites [] 7 9 =
      .error GoPanic.nonPositiveTicker := by
  decide

/-- Claim C3 (amended): the smallest valid pacing interval is one
nanosecond: for every interval ≥ 1ns the interval writer never panics
(whatever the transport does), while interval = 0 panics in the ticker
construction. -/
theorem intervalWriter_positive_interval_no_panic :
    ∀ (b : IntervalCfg) (s0 : IState) (hsW : WriteRes) (hsR : ConnReadRes)
      (msgGen : Nat → String) (sendTimes : Nat → Int) (wr : Nat → Option GoError)
      (script : List EchoRead) (t0 tFin : Int),
      1 ≤ b.interval →
      ∃ out, intervalWriterRun b s0 hsW hsR msgGen sendTimes wr script t0 tFin = .ok out := by
  intro b s0 hsW hsR msgGen sendTimes wr script t0 tFin hint
  unfold intervalWriterRun
  cases handshakeWriter (intervalSpecJson b) hsW hsR with
  | some e => exact ⟨_, rfl⟩
  | none =>
    rw [newTicker, if_neg (by omega : ¬ b.interval ≤ 0)]
    exact ⟨_, rfl⟩

/-- Witness for C3 (amended) at a 1ns interval with a failing transport. -/
theorem intervalWriter_positive_interval_no_panic_witness :
    ∃ out, intervalWriterRun ⟨2, 3, 1, true⟩ {} (.fail GoError.eof)
        (.ok (intervalSpecJson ⟨2, 3, 1, true⟩)) witMsgGen witSendTimes allOkWrites [] 7 9 =
      .ok out :=
  intervalWriter_positive_interval_no_panic ⟨2, 3, 1, true⟩ {} (.fail GoError.eof)
    (.ok (intervalSpecJson ⟨2, 3, 1, true⟩)) witMsgGen witSendTimes allOkWrites [] 7 9
    (by decide)

/-- Counterexample to Claim C4 as stated: with mismatching specs of equal
serialized length (messageSize 1024 vs 2048), only the Reader role fails
with the spec-mismatch error; the Writer role never receives a reply (the
reader aborts before replying) and fails with the `io.EOF` of the torn-down
connection, which is not the spec-mismatch error. -/
theorem spec_mismatch_writer_not_mismatch_error :
    pressuredPairHandshake ⟨1024, 10⟩ ⟨2048, 10⟩ = (some GoError.eof, some specMismatchErr) ∧
    GoError.eof ≠ specMismatchErr := by
  exact ⟨by decide, by decide⟩

/-- Claim C4 (amended): when the serialized specs differ, the Reader-role
handshake fails with the spec-mismatch error (or the failed-to-read error
when the lengths differ) before replying, the Writer-role handshake aborts
with the end-of-stream read error — not a spec-mismatch error — and neither
side runs its transfer loop: both runs return the untouched initial state
together with their handshake error. -/
theorem spec_mismatch_aborts_both_sides :
    ∀ (w r : PressuredCfg) (s0w s0r : PState) (wr : Nat → Option GoError)
      (rd : Nat → ReadFullRes) (t0 t1 : Int),
      pressuredSpecJson w ≠ pressuredSpecJson r →
      ∃ eR, pressuredPairHandshake w r = (some GoError.eof, some eR) ∧
        (eR = specMismatchErr ∨ eR = specReadShortErr) ∧
        pressuredWriterRun w s0w (.ok (pressuredSpecJson w).length) (.fail GoError.eof)
          wr t0 t1 = (s0w, some GoError.eof) ∧
        pressuredReaderRun r s0r (.ok (pressuredSpecJson w))
          (.ok (pressuredSpecJson r).length) rd t0 t1 = (s0r, some eR) := by
  intro w r s0w s0r wr rd t0 t1 hne
  have hwrun : pressuredWriterRun w s0w (.ok (pressuredSpecJson w).length) (.fail GoError.eof)
      wr t0 t1 = (s0w, some GoError.eof) := by
    unfold pressuredWriterRun handshakeWriter
    simp
  by_cases hl : (pressuredSpecJson w).length = (pressuredSpecJson r).length
  · refine ⟨specMismatchErr, ?_, Or.inl rfl, hwrun, ?_⟩
    · unfold pressuredPairHandshake handshakeReader handshakeWriter
      simp [hl, hne]
    · unfold pressuredReaderRun handshakeReader
      simp [hl, hne]
  · refine ⟨specReadShortErr, ?_, Or.inr rfl, hwrun, ?_⟩
    · unfold pressuredPairHandshake handshakeReader handshakeWriter
      simp [hl, specMismatchErr, specReadShortErr, specWriteShortErr]
    · unfold pressuredReaderRun handshakeReader
      simp [hl]

/-- Witness for C4 (amended) at messageSize 1 vs 2 with equal totals. -/
theorem spec_mismatch_aborts_both_sides_witness :
    ∃ eR, pressuredPairHandshake ⟨1, 1⟩ ⟨2, 1⟩ = (some GoError.eof, some eR) ∧
      (eR = specMismatchErr ∨ eR = specReadShortErr) ∧
      pressuredWriterRun ⟨1, 1⟩ {} (.ok (pressuredSpecJson ⟨1, 1⟩).length) (.fail GoError.eof)
        allOkWrites 5 9 = ({}, some GoError.eof) ∧
      pressuredReaderRun ⟨2, 1⟩ {} (.ok (pressuredSpecJson ⟨1, 1⟩))
        (.ok (pressuredSpecJson ⟨2, 1⟩).length) allOkReads 5 9 = ({}, some eR) :=
  spec_mismatch_aborts_both_sides ⟨1, 1⟩ ⟨2, 1⟩ {} {} allOkWrites allOkReads 5 9 (by decide)

theorem intervalWriterRun_echo_false (b : IntervalCfg) (s0 : IState) (msgGen : Nat → String)
    (sendTimes : Nat → Int) (wr : Nat → Option GoError) (script : List EchoRead) (t0 tFin : Int)
    (hecho : b.echo = false) (hint : 1 ≤ b.interval) :
    intervalWriterRun b s0 (.ok (intervalSpecJson b).length) (.ok (intervalSpecJson b))
        msgGen sendTimes wr script t0 tFin =
      .ok (⟨0, (intervalWriteLoop b.echo msgGen sendTimes wr b.totalMessages 0 []).1,
            some t0, some tFin, s0.totalLatency, s0.totalMessagesWithLatency, true⟩,
           (intervalWriteLoop b.echo msgGen sendTimes wr b.totalMessages 0 []).2.2) := by
  unfold intervalWriterRun
  rw [handshakeWriter_self]
  dsimp only
  rw [newTicker, if_neg (by omega : ¬ b.interval ≤ 0)]
  simp [hecho]

theorem intervalWriterRun_echo_true (b : IntervalCfg) (s0 : IState) (msgGen : Nat → String)
    (sendTimes : Nat → Int) (wr : Nat → Option GoError) (script : List EchoRead) (t0 tFin : Int)
    (hecho : b.echo = true) (hint : 1 ≤ b.interval) :
    intervalWriterRun b s0 (.ok (intervalSpecJson b).length) (.ok (intervalSpecJson b))
        msgGen sendTimes wr script t0 tFin =
      .ok (⟨0, (intervalWriteLoop b.echo msgGen sendTimes wr b.totalMessages 0 []).1,
            some t0,
            some (if (echoListener b.interval script
                ⟨s0.totalLatency, s0.totalMessagesWithLatency,
                  (intervalWriteLoop b.echo msgGen sendTimes wr b.totalMessages 0 []).2.1,
                  false, []⟩).exitedDueToDeadline
              then tFin - (1000000000 + b.interval) else tFin),
            (echoListener b.interval script
                ⟨s0.totalLatency, s0.totalMessagesWithLatency,
                  (intervalWriteLoop b.echo msgGen sendTimes wr b.totalMessages 0 []).2.1,
                  false, []⟩).totalLatency,
            (echoListener b.interval script
                ⟨s0.totalLatency, s0.totalMessagesWithLatency,
                  (intervalWriteLoop b.echo msgGen sendTimes wr b.totalMessages 0 []).2.1,
                  false, []⟩).messagesWithLatency,
            true⟩,
           (intervalWriteLoop b.echo msgGen sendTimes wr b.totalMessages 0 []).2.2) := by
  unfold intervalWriterRun
  rw [handshakeWriter_self]
  dsimp only
  rw [newTicker, if_neg (by omega : ¬ b.interval ≤ 0)]
  simp [hecho]

/-- Claim C7: on a completed pressured run, `Result()` carries
`ops_per_s = (reads + writes) / elapsed-seconds` and
`latency_ns = elapsed-ns / (reads + writes)` exactly when
`successfulReads > 0`, and neither key when `successfulReads = 0`. -/
theorem pressured_result_statistics :
    ∀ (s : PState) (te ts : Int),
      s.endTime = some te → te ≠ 0 → s.startTime = some ts → te - ts ≠ 0 →
      ∃ m, pressuredResult s = .ok m ∧
        (0 < s.successfulReads →
          m.ops_per_s = some (((s.successfulReads : ℚ) + (s.successfulWrites : ℚ)) /
            (((te : ℚ) - (ts : ℚ)) / 1000000000)) ∧
          m.latency_ns = some (((te : ℚ) - (ts : ℚ)) /
            ((s.successfulReads : ℚ) + (s.successfulWrites : ℚ)))) ∧
        (s.successfulReads = 0 → m.ops_per_s = none ∧ m.latency_ns = none) := by
  intro s te ts hte hte0 hts hel
  unfold pressuredResult
  rw [hte, hts]
  dsimp only
  rw [if_neg hte0, if_neg hel]
  refine ⟨_, rfl, fun hr => ?_, fun hr => ?_⟩
  · dsimp only
    rw [if_pos hr, if_pos hr]
    constructor
    · congr 1
      rw [div_mul_eq_mul_div, div_div_eq_mul_div]
    · rfl
  · dsimp only
    rw [if_neg (by omega), if_neg (by omega)]
    exact ⟨rfl, rfl⟩

/-- Witness for C7 at a completed run with 2 reads, 2 writes, 20ns elapsed. -/
theorem pressured_result_statistics_witness :
    ∃ m, pressuredResult ⟨2, 2, some 10, some 30, true⟩ = .ok m ∧
      (0 < (⟨2, 2, some 10, some 30, true⟩ : PState).successfulReads →
        m.ops_per_s = some ((((⟨2, 2, some 10, some 30, true⟩ : PState).successfulReads : ℚ) +
            ((⟨2, 2, some 10, some 30, true⟩ : PState).successfulWrites : ℚ)) /
          ((((30 : Int) : ℚ) - ((10 : Int) : ℚ)) / 1000000000)) ∧
        m.latency_ns = some ((((30 : Int) : ℚ) - ((10 : Int) : ℚ)) /
          (((⟨2, 2, some 10, some 30, true⟩ : PState).successfulReads : ℚ) +
            ((⟨2, 2, some 10, some 30, true⟩ : PState).successfulWrites : ℚ)))) ∧
      ((⟨2, 2, some 10, some 30, true⟩ : PState).successfulReads = 0 →
        m.ops_per_s = none ∧ m.latency_ns = none) :=
  pressured_result_statistics ⟨2, 2, some 10, some 30, true⟩ 30 10 rfl (by decide) rfl (by decide)

/-- Claim C6: on a completed interval run, `Result()` carries
`latency_ns = totalLatency / messagesWithLatency` exactly when at least one
echo was matched, and no `latency_ns` key otherwise; in particular a
completed echo-disabled writer run of a fresh instance never populates it. -/
theorem interval_latency_iff_matched :
    (∀ (s : IState) (te ts : Int),
      s.endTime = some te → te ≠ 0 → s.startTime = some ts → te - ts ≠ 0 →
      ∃ m, intervalResult s = .ok m ∧
        (0 < s.totalMessagesWithLatency →
          m.latency_ns = some ((s.totalLatency : ℚ) / (s.totalMessagesWithLatency : ℚ))) ∧
        (s.totalMessagesWithLatency = 0 → m.latency_ns = none)) ∧
    (∀ (b : IntervalCfg) (s0 : IState) (msgGen : Nat → String) (sendTimes : Nat → Int)
        (wr : Nat → Option GoError) (script : List EchoRead) (t0 tFin : Int) (fin : IState)
        (err : Option GoError),
      b.echo = false → 1 ≤ b.interval → s0.totalMessagesWithLatency = 0 →
      tFin ≠ 0 → tFin - t0 ≠ 0 →
      intervalWriterRun b s0 (.ok (intervalSpecJson b).length) (.ok (intervalSpecJson b))
          msgGen sendTimes wr script t0 tFin = .ok (fin, err) →
      ∃ m, intervalResult fin = .ok m ∧ m.latency_ns = none) := by
  constructor
  · intro s te ts hte hte0 hts hel
    unfold intervalResult
    rw [hte, hts]
    dsimp only
    rw [if_neg hte0, if_neg hel]
    refine ⟨_, rfl, fun hr => ?_, fun hr => ?_⟩
    · dsimp only
      rw [if_pos hr]
    · dsimp only
      rw [if_neg (by omega)]
  · intro b s0 msgGen sendTimes wr script t0 tFin fin err hecho hint hmwl htf htel hrun
    rw [intervalWriterRun_echo_false b s0 msgGen sendTimes wr script t0 tFin hecho hint] at hrun
    obtain ⟨h1, h2⟩ := Prod.mk.inj (Except.ok.inj hrun)
    rw [← h1]
    unfold intervalResult
    dsimp only
    rw [if_neg htf, if_neg htel]
    refine ⟨_, rfl, ?_⟩
    dsimp only
    rw [hmwl, if_neg (by omega)]

/-- Witness for C6: one matched echo at the state level, and a concrete
echo-disabled completed run at the run level. -/
theorem interval_latency_iff_matched_witness :
    (∃ m, intervalResult ⟨0, 2, some 10, some 30, 40, 2, true⟩ = .ok m ∧
      (0 < (⟨0, 2, some 10, some 30, 40, 2, true⟩ : IState).totalMessagesWithLatency →
        m.latency_ns = some (((⟨0, 2, some 10, some 30, 40, 2, true⟩ : IState).totalLatency : ℚ) /
          ((⟨0, 2, some 10, some 30, 40, 2, true⟩ : IState).totalMessagesWithLatency : ℚ))) ∧
      ((⟨0, 2, some 10, some 30, 40, 2, true⟩ : IState).totalMessagesWithLatency = 0 →
        m.latency_ns = none)) ∧
    (∃ m, intervalResult ⟨0, 2, some 5, some 900, 0, 0, true⟩ = .ok m ∧ m.latency_ns = none) := by
  constructor
  · exact interval_latency_iff_matched.1 ⟨0, 2, some 10, some 30, 40, 2, true⟩ 30 10 rfl
      (by decide) rfl (by decide)
  · exact interval_latency_iff_matched.2 ⟨8, 2, 50, false⟩ {} witMsgGen witSendTimes allOkWrites
      [] 5 900 ⟨0, 2, some 5, some 900, 0, 0, true⟩ none rfl (by decide) rfl (by decide)
      (by decide) (by decide)

/-- Claim C8: the echo listener bounds every read by a deadline of
`1s + Interval` from the read attempt; a deadline expiry is the
no-more-echoes completion (the run still finishes error-free), and the run's
recorded end time is backdated by exactly `1s + Interval` from the moment
the Writer finishes. -/
theorem echo_deadline_completion_backdates :
    ∀ (b : IntervalCfg) (s0 : IState) (msgGen : Nat → String) (sendTimes : Nat → Int)
      (wr : Nat → Option GoError) (pre : List EchoRead) (t t0 tFin : Int),
      b.echo = true → 1 ≤ b.interval → (∀ i, wr i = none) →
      (∀ x ∈ pre, ∃ m n, x.outcome = EchoOutcome.recv m n) →
      (∃ fin, intervalWriterRun b s0 (.ok (intervalSpecJson b).length)
          (.ok (intervalSpecJson b)) msgGen sendTimes wr (pre ++ [deadlineRead t]) t0 tFin =
            .ok (fin, none) ∧
        fin.endTime = some (tFin - (1000000000 + b.interval))) ∧
      (∀ ls : ListenerState,
        (echoListener b.interval (pre ++ [deadlineRead t]) ls).deadlines =
          ls.deadlines ++ (pre ++ [deadlineRead t]).map
            (fun x => x.attempt + 1000000000 + b.interval)) := by
  intro b s0 msgGen sendTimes wr pre t t0 tFin hecho hint hwr hpre
  constructor
  · obtain ⟨emap2, hloop⟩ :=
      intervalWriteLoop_all_ok b.echo msgGen sendTimes wr hwr b.totalMessages 0 []
    have hrun := intervalWriterRun_echo_true b s0 msgGen sendTimes wr
      (pre ++ [deadlineRead t]) t0 tFin hecho hint
    rw [hloop] at hrun
    dsimp only at hrun
    rw [(echoListener_deadline_exit b.interval pre t
      ⟨s0.totalLatency, s0.totalMessagesWithLatency, emap2, false, []⟩ hpre).1] at hrun
    rw [if_pos rfl] at hrun
    exact ⟨_, hrun, rfl⟩
  · intro ls
    exact (echoListener_deadline_exit b.interval pre t ls hpre).2

/-- Witness for C8: a concrete echo-enabled run whose listener sees one
echoed message and then its deadline; the end time is backdated by
`1s + 7ns`. -/
theorem echo_deadline_completion_backdates_witness :
    (∃ fin, intervalWriterRun ⟨4, 1, 7, true⟩ {} (.ok (intervalSpecJson ⟨4, 1, 7, true⟩).length)
        (.ok (intervalSpecJson ⟨4, 1, 7, true⟩)) witMsgGen witSendTimes allOkWrites
        ([recvRead 50 "x" 60] ++ [deadlineRead 200]) 1 2000000000 =
          .ok (fin, none) ∧
      fin.endTime = some (2000000000 - (1000000000 + 7))) ∧
    (∀ ls : ListenerState,
      (echoListener 7 ([recvRead 50 "x" 60] ++ [deadlineRead 200]) ls).deadlines =
        ls.deadlines ++ ([recvRead 50 "x" 60] ++ [deadlineRead 200]).map
          (fun x => x.attempt + 1000000000 + 7)) :=
  echo_deadline_completion_backdates ⟨4, 1, 7, true⟩ {} witMsgGen witSendTimes allOkWrites
    [recvRead 50 "x" 60] 200 1 2000000000 rfl (by decide) (fun i => rfl)
    (by
      intro x hx
      rw [List.mem_singleton] at hx
      subst hx
      exact ⟨"x", 60, rfl⟩)
